import Mathlib

/-!
Shallow embedding of `scraper.py` (B2B Lead Intelligence Scraper).

The Python module drives a pipeline fetch → parse → classify → resolve-entity →
dedup → persist.  External capabilities (the browser page fetcher, the OpenAI
completion call, the Supabase store and the wall clock) are modelled as explicit
parameters: a completion call is an `Except Unit String` (error = the call
raised), a fetched element is an `Except Unit ElementData` (error = some await
on the element raised), the store is a `List Record`, and an uncaught Python
exception inside a modelled function is an `Option.none` result.  Python
strings are `String` (a `List Char` of code points); machine ints do not occur.
-/

/-- Whitespace set recognised by Python's `str.split()` / `str.strip()`,
restricted to ASCII (the Unicode space code points are not modelled; all data
in the repository is ASCII). -/
def pyIsSpace (c : Char) : Bool :=
  c == ' ' || c == '\t' || c == '\n' || c == '\r' || c == Char.ofNat 11 || c == Char.ofNat 12

/-- Worker for `pySplit`: walks the character list keeping the (reversed)
current token in the accumulator, emitting tokens at whitespace runs. -/
def splitWsAux : List Char → List Char → List (List Char)
  | [], acc => if acc.isEmpty then [] else [acc.reverse]
  | c :: cs, acc =>
    if pyIsSpace c then
      if acc.isEmpty then splitWsAux cs [] else acc.reverse :: splitWsAux cs []
    else splitWsAux cs (c :: acc)

/-- Python `title.split()` (no separator argument): split on runs of
whitespace, never producing empty tokens. -/
def pySplit (s : String) : List String :=
  (splitWsAux s.data []).map String.mk

/-- Python `" ".join(ws)`. -/
def joinSpace : List String → String
  | [] => ""
  | [w] => w
  | w :: ws => w ++ " " ++ joinSpace ws

/-- Python `s.strip()`: drop leading and trailing whitespace. -/
def pyStrip (s : String) : String :=
  String.mk (((s.data.dropWhile pyIsSpace).reverse.dropWhile pyIsSpace).reverse)

/-- Python slice `s[:n]` on a string (code-point slicing). -/
def takeChars (n : Nat) (s : String) : String := String.mk (s.data.take n)

/-- Python `text.lower()`, ASCII case folding, as a character list. -/
def lowerStr (s : String) : List Char := s.data.map Char.toLower

/-- Does `hay` start with `needle`? (Model of Python `str.startswith`.) -/
def startsWithL : List Char → List Char → Bool
  | _, [] => true
  | [], _ :: _ => false
  | a :: as, b :: bs => a == b && startsWithL as bs

/-- Python substring containment `needle in hay`. -/
def containsSub : List Char → List Char → Bool
  | needle, [] => needle.isEmpty
  | needle, c :: t => startsWithL (c :: t) needle || containsSub needle t

/-- The module-level `TRIGGER_KEYWORDS` dict of `scraper.py`, in declaration
order (Python dicts preserve insertion order). -/
def TRIGGER_KEYWORDS : List (String × List String) :=
  [("funding", ["funding", "raised", "series", "investment", "venture capital", "seed round"]),
   ("new_hires", ["hired", "appointed", "joins", "new executive", "c-suite"]),
   ("expansion", ["expanding", "new office", "entering", "launching in", "international"]),
   ("product_launch", ["launched", "unveils", "announces", "new product", "release"]),
   ("partnership", ["partnership", "partners with", "collaboration", "teams up"])]

/-- Does a taxonomy entry match `text`?  Mirrors the loop body of
`detect_trigger_event`: ANY of the entry's keywords occurs as a substring of
the lower-cased input (keywords are stored lower-case and used verbatim). -/
def catMatches (text : String) (p : String × List String) : Bool :=
  p.2.any fun kw => containsSub kw.data (lowerStr text)

/-- The `for event_type, keywords in TRIGGER_KEYWORDS.items()` loop of
`detect_trigger_event`, returning the first matching category. -/
def detectAux (textLower : List Char) : List (String × List String) → Option String
  | [] => none
  | (event_type, keywords) :: rest =>
    if keywords.any (fun kw => containsSub kw.data textLower) then some event_type
    else detectAux textLower rest

/-- `LeadScraper.detect_trigger_event`: lower-case the text, then scan the
taxonomy in declaration order. -/
def detect_trigger_event (text : String) : Option String :=
  detectAux (lowerStr text) TRIGGER_KEYWORDS

example : detect_trigger_event "Acme raised funds and hired a VP" = some "funding" := by decide
example : detect_trigger_event "nothing to see here" = none := by decide
example : pySplit "Acme raises $10M Series A today" =
    ["Acme", "raises", "$10M", "Series", "A", "today"] := by decide

/-- `LeadScraper.extract_company_name`.  `client` models `self.openai_client`
together with the outcome of the external completion call: `none` = no client
configured, `some (Except.ok content)` = the call returned `content`,
`some (Except.error ())` = the call raised.  The result is `none` exactly when
an exception escapes the method (namely `title.split()[0]` on an empty token
list inside the `except` handler); `excerpt` flows only into the external
request, which the `client` parameter already models. -/
def extract_company_name (client : Option (Except Unit String)) (title excerpt : String) :
    Option String :=
  match client with
  | none =>
    let words := pySplit title
    some (if words.length > 3 then joinSpace (words.take 3) else takeChars 50 title)
  | some (Except.ok content) => some (pyStrip content)
  | some (Except.error _) =>
    if title = "" then some "Unknown Company"
    else
      match pySplit title with
      | [] => none
      | w :: _ => some w

/-- Link qualification inline in `LeadScraper.scrape_source`:
`if not link.startswith('http'): link = source['url'] + link`. -/
def normalizeLink (baseUrl link : String) : String :=
  if startsWithL link.data "http".data then link else baseUrl ++ link

/-- Data the external page queries yield for one article element of
`scrape_source`: `titleElem` is the title-selector hit — `none` = no element —
carrying its `inner_text` and its `href` attribute (`get_attribute` may return
`None`); `excerptElem` is the excerpt-selector hit's `inner_text`, `none` when
the selector is absent from the descriptor or matches nothing. -/
structure ElementData where
  titleElem : Option (String × Option String)
  excerptElem : Option String
  deriving DecidableEq

/-- The article dict appended by `scrape_source`. -/
structure Article where
  title : String
  link : String
  excerpt : String
  event_type : String
  company_name : String
  source : String
  deriving DecidableEq

/-- Body of the per-element `try`/`except` of `scrape_source`.  `none` means
the element contributed no article: title element absent, an await raised
(`Except.error`), `link.startswith` on a `None` href raised, no trigger
keyword matched, or the entity resolver raised — every exception is caught by
the per-element handler and the element skipped. -/
def processElement (name url : String) (client : Option (Except Unit String))
    (e : Except Unit ElementData) : Option Article :=
  match e with
  | Except.error _ => none
  | Except.ok d =>
    match d.titleElem with
    | none => none
    | some (title, hrefAttr) =>
      match hrefAttr with
      | none => none
      | some href =>
        let link := normalizeLink url href
        let excerpt := d.excerptElem.getD ""
        match detect_trigger_event (title ++ " " ++ excerpt) with
        | none => none
        | some event_type =>
          match extract_company_name client title excerpt with
          | none => none
          | some company_name =>
            some { title := pyStrip title, link := link, excerpt := pyStrip excerpt,
                   event_type := event_type, company_name := company_name, source := name }

/-- The `for element in article_elements[:10]` loop of `scrape_source`,
without the cap (applied by `scrape_source` below). -/
def processList (name url : String) (client : Option (Except Unit String))
    (es : List (Except Unit ElementData)) : List Article :=
  es.filterMap (processElement name url client)

/-- `LeadScraper.scrape_source`: a source-level fetch failure (`Except.error`,
e.g. navigation timeout or missing article selector) yields zero articles;
otherwise the first 10 elements are processed. -/
def scrape_source (name url : String) (client : Option (Except Unit String))
    (fetched : Except Unit (List (Except Unit ElementData))) : List Article :=
  match fetched with
  | Except.error _ => []
  | Except.ok es => processList name url client (es.take 10)

/-- A row of the `trigger_events` table. -/
structure Record where
  company_name : String
  event_type : String
  event_description : String
  source_url : String
  detected_at : String
  company_url : Option String
  deriving DecidableEq

/-- `LeadScraper.extract_company_url`: the documented stub, always `None`. -/
def extract_company_url (article_url : String) : Option String := none

/-- The insert payload built in `save_events` for one event; `now` models
`datetime.utcnow().isoformat()`. -/
def mkRecord (now : String) (e : Article) : Record :=
  { company_name := e.company_name, event_type := e.event_type,
    event_description := e.title ++ "\n\n" ++ e.excerpt,
    source_url := e.link, detected_at := now,
    company_url := extract_company_url e.link }

/-- The `for event in events` loop of `save_events` over a store `db`.
`fail e = true` models the per-event `try` body raising at the store
(existence check or insert unreachable) before the insert takes effect: the
exception is caught, the record skipped, and the loop continues. -/
def saveLoop (fail : Article → Bool) (now : String) : List Record → List Article → List Record
  | db, [] => db
  | db, e :: rest =>
    if fail e then saveLoop fail now db rest
    else if db.any fun r => r.source_url == e.link then saveLoop fail now db rest
    else saveLoop fail now (db ++ [mkRecord now e]) rest

/-- `LeadScraper.save_events`: with no Supabase client configured
(`store = none`) nothing is persisted ("Supabase not configured. Events not
saved."); otherwise each event runs through the dedup-check/insert loop. -/
def save_events (fail : Article → Bool) (now : String) (store : Option (List Record))
    (events : List Article) : Option (List Record) :=
  match store with
  | none => none
  | some db => some (saveLoop fail now db events)

/-- `LeadScraper.run`: scrape every source of `sources` (name, base URL, fetch
outcome) in order, concatenate the events, persist them when the list is
non-empty, and return the accumulated list; the second component is the
resulting store. -/
def run (client : Option (Except Unit String)) (store : Option (List Record))
    (fail : Article → Bool) (now : String)
    (sources : List (String × String × Except Unit (List (Except Unit ElementData)))) :
    List Article × Option (List Record) :=
  let all_events := (sources.map fun s => scrape_source s.1 s.2.1 client s.2.2).flatten
  if all_events.isEmpty then (all_events, store)
  else (all_events, save_events fail now store all_events)

/-- Number of rows of `db` whose `source_url` is `u` (the dedup key). -/
def countUrl (db : List Record) (u : String) : Nat :=
  db.countP fun r => r.source_url == u

example : extract_company_name none "Acme raises $10M Series A today" "" =
    some "Acme raises $10M" := by decide
example : extract_company_name none "" "" = some "" := by decide
example : extract_company_name (some (Except.error ())) "   " "" = none := by decide
example : normalizeLink "https://example.com" "/posts/1" = "https://example.com/posts/1" := by
  decide

/-- A sample trigger event used to instantiate the persistence theorems. -/
def sampleArticle : Article :=
  { title := "Acme raised", link := "https://x.com/1", excerpt := "",
    event_type := "funding", company_name := "Acme raised", source := "TechCrunch" }

/-- The taxonomy scan of `detect_trigger_event` is `List.find?` over the
per-category match predicate, projected to the category name. -/
theorem detectAux_eq_find (text : String) (pairs : List (String × List String)) :
    detectAux (lowerStr text) pairs = (pairs.find? (catMatches text)).map Prod.fst := by
  induction pairs with
  | nil => rfl
  | cons p rest ih =>
    obtain ⟨et, kws⟩ := p
    by_cases h : (kws.any fun kw => containsSub kw.data (lowerStr text)) = true
    · have hm : catMatches text (et, kws) = true := h
      rw [detectAux, if_pos h, List.find?_cons_of_pos _ hm]
      rfl
    · have hm : ¬ catMatches text (et, kws) = true := h
      rw [detectAux, if_neg h, List.find?_cons_of_neg _ (by simpa using hm), ih]

/-- If `find?` hits `a`, the list splits as a non-matching block, then `a`. -/
theorem find_split {α : Type} (p : α → Bool) (l : List α) (a : α)
    (h : l.find? p = some a) :
    ∃ l1 l2, l = l1 ++ a :: l2 ∧ (∀ x ∈ l1, p x = false) ∧ p a = true := by
  induction l with
  | nil => simp [List.find?] at h
  | cons b rest ih =>
    by_cases hb : p b = true
    · rw [List.find?_cons_of_pos _ hb, Option.some_inj] at h
      exact ⟨[], rest, by simp [h], by simp, h ▸ hb⟩
    · rw [List.find?_cons_of_neg _ (by simpa using hb)] at h
      obtain ⟨l1, l2, heq, hall, hpa⟩ := ih h
      refine ⟨b :: l1, l2, by rw [heq]; rfl, ?_, hpa⟩
      intro x hx
      rcases List.mem_cons.mp hx with hx | hx
      · simpa [hx] using hb
      · exact hall x hx

/-- A member satisfying the predicate forces `find?` to return a hit. -/
theorem find_of_mem {α : Type} (p : α → Bool) (l : List α) (x : α)
    (hx : x ∈ l) (hp : p x = true) : ∃ a, l.find? p = some a := by
  induction l with
  | nil => cases hx
  | cons b rest ih =>
    by_cases hb : p b = true
    · exact ⟨b, List.find?_cons_of_pos _ hb⟩
    · rcases List.mem_cons.mp hx with hx | hx
      · exact absurd (hx ▸ hp) hb
      · obtain ⟨a, ha⟩ := ih hx
        exact ⟨a, by rw [List.find?_cons_of_neg _ (by simpa using hb), ha]⟩

/-- C3: for every input text containing keywords from two (or more)
categories, `detect_trigger_event` returns the category that appears first in
taxonomy declaration order — the taxonomy splits into a block of categories
none of whose keywords occur in the lower-cased input, followed by the
returned category, which matches; exactly one category is returned. -/
theorem detect_trigger_event_tiebreak (text : String) (p q : String × List String)
    (hpq : p ≠ q) (hp : p ∈ TRIGGER_KEYWORDS) (hq : q ∈ TRIGGER_KEYWORDS)
    (hmp : catMatches text p = true) (hmq : catMatches text q = true) :
    ∃ l1 r l2, TRIGGER_KEYWORDS = l1 ++ r :: l2 ∧
      (∀ s ∈ l1, catMatches text s = false) ∧ catMatches text r = true ∧
      detect_trigger_event text = some r.1 := by
  obtain ⟨a, ha⟩ := find_of_mem (catMatches text) TRIGGER_KEYWORDS p hp hmp
  obtain ⟨l1, l2, heq, hall, hpa⟩ := find_split _ _ _ ha
  refine ⟨l1, a, l2, heq, hall, hpa, ?_⟩
  rw [detect_trigger_event, detectAux_eq_find, ha]
  rfl

/-- C3 witness: "Acme raised funds and hired a VP" matches both `funding`
("raised") and `new_hires` ("hired"); `funding` is declared first and wins. -/
theorem detect_trigger_event_tiebreak_witness :
    ∃ l1 r l2, TRIGGER_KEYWORDS = l1 ++ r :: l2 ∧
      (∀ s ∈ l1, catMatches "Acme raised funds and hired a VP" s = false) ∧
      catMatches "Acme raised funds and hired a VP" r = true ∧
      detect_trigger_event "Acme raised funds and hired a VP" = some r.1 :=
  detect_trigger_event_tiebreak "Acme raised funds and hired a VP"
    ("funding", ["funding", "raised", "series", "investment", "venture capital", "seed round"])
    ("new_hires", ["hired", "appointed", "joins", "new executive", "c-suite"])
    (by decide) (by decide) (by decide) (by decide) (by decide)

/-- C4: matching is case-insensitive substring search against the fixed
taxonomy — when no category's keyword occurs in the lower-cased input,
`detect_trigger_event` returns `none`; when exactly one category matches, that
category is returned. -/
theorem detect_trigger_event_single_or_none (text : String) :
    ((∀ p ∈ TRIGGER_KEYWORDS, catMatches text p = false) →
        detect_trigger_event text = none) ∧
    (∀ p ∈ TRIGGER_KEYWORDS, catMatches text p = true →
      (∀ q ∈ TRIGGER_KEYWORDS, q ≠ p → catMatches text q = false) →
        detect_trigger_event text = some p.1) := by
  constructor
  · intro h
    rw [detect_trigger_event, detectAux_eq_find, List.find?_eq_none.mpr]
    · rfl
    · intro x hx
      simp [h x hx]
  · intro p hp hmp huniq
    obtain ⟨a, ha⟩ := find_of_mem (catMatches text) TRIGGER_KEYWORDS p hp hmp
    obtain ⟨l1, l2, heq, _, hpa⟩ := find_split _ _ _ ha
    have hamem : a ∈ TRIGGER_KEYWORDS := by
      rw [heq]; exact List.mem_append_right _ (List.mem_cons_self _ _)
    have hap : a = p := by
      by_contra hne
      exact absurd hpa (by simp [huniq a hamem hne])
    rw [detect_trigger_event, detectAux_eq_find, ha, hap]
    rfl

/-- C4 witness: "The CFO was hired yesterday" contains the `new_hires` keyword
"hired" and no keyword of any other category. -/
theorem detect_trigger_event_single_or_none_witness :
    detect_trigger_event "The CFO was hired yesterday" = some "new_hires" :=
  (detect_trigger_event_single_or_none "The CFO was hired yesterday").2
    ("new_hires", ["hired", "appointed", "joins", "new executive", "c-suite"])
    (by decide) (by decide) (by decide)

/-- Appending the empty string is the identity (used to rewrite the classifier
input `title ++ " " ++ excerpt` when the excerpt defaults to `""`). -/
theorem str_append_empty (s : String) : s ++ "" = s := by
  cases s with
  | mk data =>
    show String.mk (data ++ []) = String.mk data
    rw [List.append_nil]

/-- C1 counterexample: with no completion client, the empty (unavailable)
title yields the empty string, not the sentinel "Unknown Company", and a
two-token title longer than 50 characters is truncated to its first 50
characters rather than returned in full. -/
theorem extract_company_name_no_client_cex :
    (extract_company_name none "" "" = some "" ∧ ("" : String) ≠ "Unknown Company") ∧
    extract_company_name none
        "Supercalifragilisticexpialidocious-Hyperconglomerate-Intercontinental Holdings" ""
      ≠ some "Supercalifragilisticexpialidocious-Hyperconglomerate-Intercontinental Holdings" := by
  decide

/-- C1 (amended): with no completion client configured, the resolver returns
the first 3 whitespace-delimited tokens of the title (joined by single
spaces) when the title has more than 3 tokens, and otherwise the first 50
characters of the title — which is the full title exactly when the title is
at most 50 characters long, and a proper truncation for longer titles (so the
empty title yields the empty string, not "Unknown Company"); in particular
"Acme raises $10M Series A today" yields "Acme raises $10M". -/
theorem extract_company_name_no_client (title excerpt : String) :
    ((pySplit title).length > 3 →
        extract_company_name none title excerpt = some (joinSpace ((pySplit title).take 3))) ∧
    ((pySplit title).length ≤ 3 →
        extract_company_name none title excerpt = some (takeChars 50 title)) ∧
    (takeChars 50 title).data = title.data.take 50 ∧
    (title.data.length ≤ 50 → takeChars 50 title = title) ∧
    extract_company_name none "Acme raises $10M Series A today" "" =
      some "Acme raises $10M" := by
  refine ⟨?_, ?_, rfl, ?_, by decide⟩
  · intro h
    simp [extract_company_name, h]
  · intro h
    have h3 : ¬ (pySplit title).length > 3 := by omega
    simp [extract_company_name, h3]
  · intro hlen
    show String.mk (title.data.take 50) = title
    rw [List.take_of_length_le hlen]

/-- C1 witness: the spec's worked example derived from the first conjunct,
and a two-token 79-character title hitting the first-50-characters truncation
of the second conjunct. -/
theorem extract_company_name_no_client_witness :
    ((pySplit "Acme raises $10M Series A today").length > 3 ∧
      extract_company_name none "Acme raises $10M Series A today" "" =
        some (joinSpace ((pySplit "Acme raises $10M Series A today").take 3))) ∧
    extract_company_name none
        "Supercalifragilisticexpialidocious-Hyperconglomerate-Intercontinental Holdings" "" =
      some (takeChars 50
        "Supercalifragilisticexpialidocious-Hyperconglomerate-Intercontinental Holdings") :=
  ⟨⟨by decide,
    (extract_company_name_no_client "Acme raises $10M Series A today" "").1 (by decide)⟩,
   (extract_company_name_no_client
      "Supercalifragilisticexpialidocious-Hyperconglomerate-Intercontinental Holdings" "").2.1
     (by decide)⟩

/-- C5 counterexample: when the completion call raises and the title is
non-empty but consists only of whitespace, the `except` handler's
`title.split()[0]` itself raises (modelled as `none`): the error escapes the
resolver and no company name is returned. -/
theorem extract_company_name_error_cex :
    ("   " : String) ≠ "" ∧
    extract_company_name (some (Except.error ())) "   " "x" = none := by
  decide

/-- C5 (amended): when the external completion call raises, the error is
caught and the resolver returns the first whitespace-delimited token of the
title when the title has at least one token, and "Unknown Company" when the
title is empty; but for a non-empty whitespace-only title (no tokens) the
handler itself raises, so the error does escape the resolver in that one
case. -/
theorem extract_company_name_error_fallback (title excerpt : String) :
    (title = "" →
        extract_company_name (some (Except.error ())) title excerpt =
          some "Unknown Company") ∧
    (∀ w ws, pySplit title = w :: ws →
        extract_company_name (some (Except.error ())) title excerpt = some w) ∧
    (title ≠ "" → pySplit title = [] →
        extract_company_name (some (Except.error ())) title excerpt = none) := by
  refine ⟨?_, ?_, ?_⟩
  · intro h
    simp [extract_company_name, h]
  · intro w ws h
    have hne : title ≠ "" := by
      intro he
      rw [he] at h
      exact List.noConfusion h
    simp [extract_company_name, hne, h]
  · intro hne hsp
    simp [extract_company_name, hne, hsp]

/-- C5 witness: a failing completion call on "Acme Corp raises" degrades to
the single first token "Acme". -/
theorem extract_company_name_error_fallback_witness :
    extract_company_name (some (Except.error ())) "Acme Corp raises" "" = some "Acme" :=
  (extract_company_name_error_fallback "Acme Corp raises" "").2.1
    "Acme" ["Corp", "raises"] (by decide)

/-- C10: the exception-path fallback of the resolver is itself partial — for
the non-empty whitespace-only title "   ", a failing completion call leaves
`title.split()` empty, the `[0]` index raises (modelled as `none`), and no
company name is returned; the error branch is reachable and, for a title with
a token such as "Acme", returns that token. -/
theorem error_fallback_raises_on_whitespace_title :
    ("   " : String) ≠ "" ∧
    extract_company_name (some (Except.error ())) "   " "" = none ∧
    extract_company_name (some (Except.error ())) "Acme" "" = some "Acme" := by
  decide

/-- C6: link normalization in `scrape_source` — a link that does not start
with "http" is qualified by prefixing the source's base URL, a link that does
start with "http" (an absolute URL) passes through unchanged, and the spec's
worked example holds: base `https://example.com` with link `/posts/1` yields
`https://example.com/posts/1`. -/
theorem scrape_link_normalization (base link : String) :
    (startsWithL link.data "http".data = true → normalizeLink base link = link) ∧
    (startsWithL link.data "http".data = false → normalizeLink base link = base ++ link) ∧
    normalizeLink "https://example.com" "/posts/1" = "https://example.com/posts/1" := by
  refine ⟨?_, ?_, by decide⟩
  · intro h
    simp [normalizeLink, h]
  · intro h
    simp [normalizeLink, h]

/-- C6 witness: an absolute link is passed through unchanged. -/
theorem scrape_link_normalization_witness :
    normalizeLink "https://a.com" "https://b.com/x" = "https://b.com/x" :=
  (scrape_link_normalization "https://a.com" "https://b.com/x").1 (by decide)

/-- C7: for an element whose excerpt query yields nothing (no excerpt selector
configured, or the selector matches nothing), the excerpt defaults to the
empty string and the element is still processed — when its title and link are
present, a trigger matches and the resolver returns a name, the produced
article carries `excerpt = ""`; and an element whose processing raises is
skipped alone: the loop's output over `xs ++ [failing] ++ ys` is exactly the
output over `xs` followed by the output over `ys`. -/
theorem scrape_excerpt_default_and_skip (name url : String)
    (client : Option (Except Unit String)) (d : ElementData)
    (t lk ev cn : String) (xs ys : List (Except Unit ElementData))
    (ht : d.titleElem = some (t, some lk))
    (hx : d.excerptElem = none)
    (hev : detect_trigger_event (t ++ " ") = some ev)
    (hcn : extract_company_name client t "" = some cn) :
    processElement name url client (Except.ok d) =
      some { title := pyStrip t, link := normalizeLink url lk, excerpt := "",
             event_type := ev, company_name := cn, source := name } ∧
    processList name url client (xs ++ Except.error () :: ys) =
      processList name url client xs ++ processList name url client ys := by
  constructor
  · have hin : t ++ " " ++ "" = t ++ " " := str_append_empty _
    simp only [processElement, ht, hx, Option.getD_none, hin, hev, hcn]
    rfl
  · simp only [processList, List.filterMap_append, List.filterMap_cons]
    rfl

/-- C7 witness: a concrete element with no excerpt hit yields an article with
an empty excerpt, and a raising element between two empty batches is dropped. -/
theorem scrape_excerpt_default_and_skip_witness :
    processElement "TechCrunch" "https://techcrunch.com" none
        (Except.ok { titleElem := some ("Acme raised", some "/p"), excerptElem := none }) =
      some { title := "Acme raised", link := "https://techcrunch.com/p", excerpt := "",
             event_type := "funding", company_name := "Acme raised", source := "TechCrunch" } :=
  ((scrape_excerpt_default_and_skip "TechCrunch" "https://techcrunch.com" none
      { titleElem := some ("Acme raised", some "/p"), excerptElem := none }
      "Acme raised" "/p" "funding" "Acme raised" [] []
      rfl rfl (by decide) (by decide)).1).trans (by decide)

/-- After the dedup-check/insert loop, the number of rows keyed by `u` is
either unchanged or, when it was zero, at most raised to one. -/
theorem saveLoop_countUrl (fail : Article → Bool) (now u : String)
    (evts : List Article) :
    ∀ db, countUrl (saveLoop fail now db evts) u = countUrl db u ∨
      (countUrl db u = 0 ∧ countUrl (saveLoop fail now db evts) u = 1) := by
  induction evts with
  | nil => intro db; left; rfl
  | cons e rest ih =>
    intro db
    by_cases hf : fail e = true
    · rw [show saveLoop fail now db (e :: rest) = saveLoop fail now db rest by
        simp [saveLoop, hf]]
      exact ih db
    · by_cases hex : (db.any fun r => r.source_url == e.link) = true
      · rw [show saveLoop fail now db (e :: rest) = saveLoop fail now db rest by
          simp [saveLoop, hf, hex]]
        exact ih db
      · rw [show saveLoop fail now db (e :: rest) =
            saveLoop fail now (db ++ [mkRecord now e]) rest by
          simp [saveLoop, hf, hex]]
        have hnone : ∀ r ∈ db, (r.source_url == e.link) = false := by
          intro r hr
          have := List.any_eq_false.mp (Bool.eq_false_iff.mpr hex) r hr
          simpa using this
        by_cases hu : e.link = u
        · have h0 : countUrl db u = 0 := by
            rw [countUrl, List.countP_eq_zero]
            intro r hr
            simp [hnone r hr, ← hu]
          have h1 : countUrl (db ++ [mkRecord now e]) u = 1 := by
            rw [countUrl, List.countP_append]
            have : countUrl db u = 0 := h0
            rw [countUrl] at this
            simp [this, List.countP_cons, mkRecord, hu]
          rcases ih (db ++ [mkRecord now e]) with h | ⟨_, h⟩
          · exact Or.inr ⟨h0, by rw [h, h1]⟩
          · exact Or.inr ⟨h0, h⟩
        · have heq : countUrl (db ++ [mkRecord now e]) u = countUrl db u := by
            rw [countUrl, countUrl, List.countP_append]
            have : ((mkRecord now e).source_url == u) = false := by
              simp [mkRecord, hu]
            simp [List.countP_cons, this]
          rcases ih (db ++ [mkRecord now e]) with h | ⟨hz, h⟩
          · exact Or.inl (by rw [h, heq])
          · exact Or.inr ⟨by rw [← heq]; exact hz, h⟩

/-- C2: persistence is idempotent on the dedup key — an event whose
`source_url` already has a matching row is skipped outright (the store is left
exactly as it was, no update), and for any `source_url` absent from the
initial store, running the persistence loop twice over the same event list
leaves at most one matching row, however the per-record store operations
fail on either run. -/
theorem save_events_dedup_idempotent
    (fail1 fail2 : Article → Bool) (now1 now2 : String)
    (db : List Record) (evts : List Article) (u : String)
    (h : countUrl db u = 0) :
    countUrl (saveLoop fail2 now2 (saveLoop fail1 now1 db evts) evts) u ≤ 1 ∧
    (∀ (fail : Article → Bool) (now : String) (db2 : List Record) (e : Article)
        (rest : List Article),
      (db2.any fun r => r.source_url == e.link) = true →
      saveLoop fail now db2 (e :: rest) = saveLoop fail now db2 rest) := by
  constructor
  · rcases saveLoop_countUrl fail1 now1 u evts db with h1 | ⟨_, h1⟩ <;>
      rcases saveLoop_countUrl fail2 now2 u evts (saveLoop fail1 now1 db evts) with h2 | ⟨_, h2⟩ <;>
      omega
  · intro fail now db2 e rest hex
    by_cases hf : fail e = true <;> simp [saveLoop, hf, hex]

/-- C2 witness: from an empty store, persisting the sample event twice leaves
at most one row keyed by its source URL. -/
theorem save_events_dedup_idempotent_witness :
    countUrl (saveLoop (fun _ => false) "t2"
        (saveLoop (fun _ => false) "t1" [] [sampleArticle]) [sampleArticle])
      "https://x.com/1" ≤ 1 :=
  (save_events_dedup_idempotent (fun _ => false) (fun _ => false) "t1" "t2" []
    [sampleArticle] "https://x.com/1" (by decide)).1

/-- C9: company-URL resolution is a stub returning `none` for every article
URL, and consequently every row the persistence loop adds to the store
carries `company_url = none`. -/
theorem persisted_company_url_null (article_url : String) (fail : Article → Bool)
    (now : String) (db : List Record) (evts : List Article) (r : Record) :
    extract_company_url article_url = none ∧
    (r ∈ saveLoop fail now db evts → r ∈ db ∨ r.company_url = none) := by
  refine ⟨rfl, ?_⟩
  induction evts generalizing db with
  | nil => intro hmem; exact Or.inl hmem
  | cons e rest ih =>
    intro hmem
    by_cases hf : fail e = true
    · rw [show saveLoop fail now db (e :: rest) = saveLoop fail now db rest by
        simp [saveLoop, hf]] at hmem
      exact ih db hmem
    · by_cases hex : (db.any fun x => x.source_url == e.link) = true
      · rw [show saveLoop fail now db (e :: rest) = saveLoop fail now db rest by
          simp [saveLoop, hf, hex]] at hmem
        exact ih db hmem
      · rw [show saveLoop fail now db (e :: rest) =
            saveLoop fail now (db ++ [mkRecord now e]) rest by
          simp [saveLoop, hf, hex]] at hmem
        rcases ih (db ++ [mkRecord now e]) hmem with hr | hr
        · rcases List.mem_append.mp hr with hr | hr
          · exact Or.inl hr
          · have : r = mkRecord now e := by simpa using hr
            exact Or.inr (by rw [this]; rfl)
        · exact Or.inr hr

/-- C9 witness: the row persisted for the sample event has a null company
URL. -/
theorem persisted_company_url_null_witness :
    (mkRecord "t" sampleArticle).company_url = none := by
  rcases (persisted_company_url_null "https://x.com/1" (fun _ => false) "t" []
      [sampleArticle] (mkRecord "t" sampleArticle)).2 (by decide) with h | h
  · exact absurd h (by decide)
  · exact h

/-- C8: the orchestrator reports the full accumulated event list regardless of
persistence outcome — the first component of `run` does not depend on the
store state, the per-record failure pattern, or the timestamp — and with no
store configured all persistence is skipped: the resulting store stays
`none` while the returned list is that same full list. -/
theorem run_reports_all_events (client : Option (Except Unit String))
    (store1 store2 : Option (List Record)) (fail1 fail2 : Article → Bool)
    (now1 now2 : String)
    (sources : List (String × String × Except Unit (List (Except Unit ElementData)))) :
    (run client store1 fail1 now1 sources).1 = (run client store2 fail2 now2 sources).1 ∧
    (run client none fail1 now1 sources).2 = none := by
  constructor
  · unfold run
    by_cases h : ((sources.map fun s => scrape_source s.1 s.2.1 client s.2.2).flatten).isEmpty <;>
      simp [h]
  · unfold run
    by_cases h : ((sources.map fun s => scrape_source s.1 s.2.1 client s.2.2).flatten).isEmpty <;>
      simp [h, save_events]
